import Mathlib

/-!
Verification development for the pseudoterminal session core of
`src/bin/topgrade-gui.rs` (repository Usiel-Amaral/topgrade).

Text is modelled as lists of Unicode code points (`List Nat`); byte
streams are also `List Nat` (each element a byte value).  Pure Rust
functions become Lean functions; the mutable `TopgradeApp` struct becomes
an explicit state record threaded through the operations.
-/

/-- Code points of a string literal; used to write concrete inputs. -/
def str2cp (s : String) : List Nat := s.toList.map Char.toNat

/-- ASCII lowercasing of one code point.  Models Rust `str::to_lowercase`
on the ASCII range (every phrase the password detector matches is ASCII). -/
def toLowerCp (c : Nat) : Nat := if 65 ≤ c && c ≤ 90 then c + 32 else c

/-- Unicode White_Space test on a code point; models Rust
`char::is_whitespace` as used by `str::trim`. -/
def isRustWhitespace (c : Nat) : Bool :=
  (9 ≤ c && c ≤ 13) || c = 32 || c = 133 || c = 160 || c = 5760 ||
  (8192 ≤ c && c ≤ 8202) || c = 8232 || c = 8233 || c = 8239 || c = 8287 || c = 12288

/-- Rust `str::trim`: remove leading and trailing whitespace. -/
def rustTrim (t : List Nat) : List Nat :=
  ((t.dropWhile isRustWhitespace).reverse.dropWhile isRustWhitespace).reverse

/-- Rust `str::contains` with a literal pattern: `containsSub pat l` holds
when `pat` occurs contiguously inside `l`. -/
def containsSub (pat : List Nat) : List Nat → Bool
  | [] => pat.isPrefixOf []
  | c :: rest => pat.isPrefixOf (c :: rest) || containsSub pat rest

/-- State of the `TopgradeApp` struct (fields relevant to the session /
streaming / parsing core; the executable path, locale and auto-scroll
flag are pure presentation data and carry no behaviour here).
`tx_input` models presence of the PTY writer handle
(`Option<Box<dyn Write + Send>>` being `Some`). -/
structure TopgradeApp where
  running : Bool
  tx_input : Bool
  console_lines : List (List Nat)
  current_line : List Nat
  cursor_col : Nat
  input_text : List Nat
  password_mode : Bool
  finished : Bool
deriving DecidableEq

/-- One character step of the line buffer: the body of the `for c in
text.chars()` loop of `TopgradeApp::process_output` (lines 357-374). -/
def process_char (s : TopgradeApp) (c : Nat) : TopgradeApp :=
  if c = 10 then
    { s with console_lines := s.console_lines ++ [s.current_line],
             current_line := [], cursor_col := 0 }
  else if c = 13 then
    { s with cursor_col := 0 }
  else
    let s1 := if s.cursor_col = 0 ∧ s.current_line ≠ [] then
                { s with current_line := [] } else s
    { s1 with current_line := s1.current_line ++ [c],
              cursor_col := s1.cursor_col + 1 }

/-- Password-prompt condition of `process_output` (line 353): the
lowercased fragment contains "password", "senha" or "passphrase" and the
trimmed fragment ends with a colon. -/
def detects_password_prompt (text : List Nat) : Bool :=
  let lower := text.map toLowerCp
  (containsSub (str2cp ("password")) lower || containsSub (str2cp ("senha")) lower ||
    containsSub (str2cp ("passphrase")) lower)
  && ((rustTrim text).getLast? == some 58)

/-- `TopgradeApp::process_output` (lines 349-375): prompt detection, then
the per-character line-buffer loop. -/
def process_output (s : TopgradeApp) (text : List Nat) : TopgradeApp :=
  let s1 := if detects_password_prompt text then { s with password_mode := true } else s
  text.foldl process_char s1

/-- `TopgradeApp::send_input` (lines 377-387).  Returns the new state and
the list of buffers written to the PTY (one `write_all` call per element;
a write error only logs and does not change state, so the result of the
write does not appear). -/
def send_input (s : TopgradeApp) : TopgradeApp × List (List Nat) :=
  if s.tx_input then
    ({ s with input_text := [], password_mode := false }, [s.input_text ++ [10]])
  else (s, [])

/-- Messages sent over the channel (enum `AppMsg`). -/
inductive AppMsg where
  | Output (data : List Nat)
  | Exit
deriving DecidableEq

/-- Result of one blocking `reader.read`: `ok data` models `Ok(n)` with
`data` the `n` bytes read (so `ok []` is `Ok(0)`, i.e. EOF); `err` models
`Err(_)`. -/
inductive ReadResult where
  | ok (data : List Nat)
  | err
deriving DecidableEq

/-- The reader worker of `start_topgrade_embedded` (lines 320-334) run
against a trace of successive read results: a non-empty read forwards one
`Output` message and loops; `Ok(0)` or an error breaks the loop, after
which exactly one `Exit` message is sent and the thread ends.  An empty
trace models a reader still blocked on `read`. -/
def reader_thread : List ReadResult → List AppMsg
  | [] => []
  | ReadResult.ok data :: rs =>
      if data.length > 0 then AppMsg.Output data :: reader_thread rs else [AppMsg.Exit]
  | ReadResult.err :: _ => [AppMsg.Exit]

/-- App state immediately after `start_topgrade_embedded` succeeds
(lines 338-346). -/
def started : TopgradeApp :=
  { running := true, tx_input := true, console_lines := [], current_line := [],
    cursor_col := 0, input_text := [], password_mode := false, finished := false }

/-- UTF-8 continuation byte test (`0x80..=0xBF`). -/
def isCont (b : Nat) : Bool := 128 ≤ b && b ≤ 191

/-- Valid second byte of a three-byte sequence for lead `b`
(per `core::str` validation: `0xE0` needs `0xA0..=0xBF`, `0xED` needs
`0x80..=0x9F`, the rest a plain continuation byte). -/
def cont3ok (b b1 : Nat) : Bool :=
  if b = 224 then 160 ≤ b1 && b1 ≤ 191
  else if b = 237 then 128 ≤ b1 && b1 ≤ 159
  else isCont b1

/-- Valid second byte of a four-byte sequence for lead `b`
(`0xF0` needs `0x90..=0xBF`, `0xF4` needs `0x80..=0x8F`). -/
def cont4ok (b b1 : Nat) : Bool :=
  if b = 240 then 144 ≤ b1 && b1 ≤ 191
  else if b = 244 then 128 ≤ b1 && b1 ≤ 143
  else isCont b1

/-- Scanning loop of `String::from_utf8_lossy`, mapping bytes to code
points: valid sequences decode, each maximal subpart of an ill-formed
sequence becomes one U+FFFD (65533), and decoding restarts at the first
byte that broke the sequence.  An incomplete sequence at end of input
becomes one U+FFFD.  The fuel argument is a termination device only;
`utf8_lossy` supplies the input length, which the scan (consuming at
least one byte per step) never exhausts. -/
def utf8LossyAux : Nat → List Nat → List Nat
  | _, [] => []
  | 0, _ :: _ => []
  | fuel + 1, b :: bs =>
    if b ≤ 127 then b :: utf8LossyAux fuel bs
    else if 194 ≤ b ∧ b ≤ 223 then
      match bs with
      | [] => [65533]
      | b1 :: bs1 =>
        if isCont b1 then ((b % 32) * 64 + b1 % 64) :: utf8LossyAux fuel bs1
        else 65533 :: utf8LossyAux fuel bs
    else if 224 ≤ b ∧ b ≤ 239 then
      match bs with
      | [] => [65533]
      | b1 :: bs1 =>
        if cont3ok b b1 then
          match bs1 with
          | [] => [65533]
          | b2 :: bs2 =>
            if isCont b2 then
              ((b % 16) * 4096 + (b1 % 64) * 64 + b2 % 64) :: utf8LossyAux fuel bs2
            else 65533 :: utf8LossyAux fuel bs1
        else 65533 :: utf8LossyAux fuel bs
    else if 240 ≤ b ∧ b ≤ 244 then
      match bs with
      | [] => [65533]
      | b1 :: bs1 =>
        if cont4ok b b1 then
          match bs1 with
          | [] => [65533]
          | b2 :: bs2 =>
            if isCont b2 then
              match bs2 with
              | [] => [65533]
              | b3 :: bs3 =>
                if isCont b3 then
                  ((b % 8) * 262144 + (b1 % 64) * 4096 + (b2 % 64) * 64 + b3 % 64)
                    :: utf8LossyAux fuel bs3
                else 65533 :: utf8LossyAux fuel bs2
            else 65533 :: utf8LossyAux fuel bs1
        else 65533 :: utf8LossyAux fuel bs
    else 65533 :: utf8LossyAux fuel bs

/-- `String::from_utf8_lossy` from bytes to code points. -/
def utf8_lossy (bs : List Nat) : List Nat := utf8LossyAux bs.length bs

/-- The `AppMsg::Output` arm of `TopgradeApp::update` (lines 155-158):
lossy-decode the chunk and feed it through `process_output`. -/
def handle_output (s : TopgradeApp) (data : List Nat) : TopgradeApp :=
  process_output s (utf8_lossy data)

/-- The `egui::Color32` values named by `parse_ansi`. -/
inductive Color32 where
  | black | red | green | yellow | blue | white
  | darkGray | lightRed | lightGreen | lightYellow | lightBlue | lightGray
  | fromRgb (r g b : Nat)
deriving DecidableEq

/-- One styled span produced by `parse_ansi` (struct `ColoredSpan`). -/
structure ColoredSpan where
  text : List Nat
  color : Option Color32
  background : Option Color32
  bold : Bool
deriving DecidableEq

/-- Running style state of `parse_ansi` (its three mutable locals). -/
structure AnsiStyle where
  color : Option Color32
  background : Option Color32
  bold : Bool
deriving DecidableEq

/-- Character class `[0-9;]` of the SGR regex. -/
def isCodeByte (c : Nat) : Bool := (48 ≤ c && c ≤ 57) || c = 59

/-- Match the regex `\x1b\[([0-9;]*)m` anchored at the head of the list:
on success return the captured parameter bytes and the remainder after
the final `m` (109).  `[0-9;]*` is maximal since `m` is not in the class. -/
def matchSGRAt : List Nat → Option (List Nat × List Nat)
  | a :: b :: rest =>
    if a = 27 && b = 91 then
      match rest.dropWhile isCodeByte with
      | c :: rr => if c = 109 then some (rest.takeWhile isCodeByte, rr) else none
      | [] => none
    else none
  | _ => none

/-- One SGR parameter (`match code` arm of `parse_ansi`, lines 61-82). -/
def applyCode (st : AnsiStyle) (code : List Nat) : AnsiStyle :=
  if code = str2cp ("0") then { color := none, background := none, bold := false }
  else if code = str2cp ("1") then { st with bold := true }
  else if code = str2cp ("30") then { st with color := some Color32.black }
  else if code = str2cp ("31") then { st with color := some Color32.red }
  else if code = str2cp ("32") then { st with color := some Color32.green }
  else if code = str2cp ("33") then { st with color := some Color32.yellow }
  else if code = str2cp ("34") then { st with color := some Color32.blue }
  else if code = str2cp ("35") then { st with color := some (Color32.fromRgb 255 0 255) }
  else if code = str2cp ("36") then { st with color := some (Color32.fromRgb 0 190 190) }
  else if code = str2cp ("37") then { st with color := some Color32.white }
  else if code = str2cp ("90") then { st with color := some Color32.darkGray }
  else if code = str2cp ("91") then { st with color := some Color32.lightRed }
  else if code = str2cp ("92") then { st with color := some Color32.lightGreen }
  else if code = str2cp ("93") then { st with color := some Color32.lightYellow }
  else if code = str2cp ("94") then { st with color := some Color32.lightBlue }
  else if code = str2cp ("95") then { st with color := some Color32.lightGray }
  else if code = str2cp ("96") then { st with color := some (Color32.fromRgb 0 255 255) }
  else if code = str2cp ("97") then { st with color := some Color32.white }
  else st

/-- The whole escape-code handling of one match (lines 54-84): empty or
literal "0" resets everything, otherwise the parameters are split on `;`
and applied in order. -/
def applyCodes (st : AnsiStyle) (codeStr : List Nat) : AnsiStyle :=
  if codeStr = [] || codeStr = str2cp ("0") then
    { color := none, background := none, bold := false }
  else (codeStr.splitOn 59).foldl applyCode st

/-- Flush the pending plain text (`text[last_idx..start]`) as one span,
omitted when empty (lines 45-52, 88-95). -/
def flushSpan (pending : List Nat) (st : AnsiStyle) : List ColoredSpan :=
  if pending = [] then [] else [⟨pending, st.color, st.background, st.bold⟩]

/-- Scanning loop of `parse_ansi` over the remaining input, carrying the
pending unmatched text and the running style.  The fuel argument is a
termination device only; `parse_ansi` supplies the input length, which the
scan (consuming at least one code point per step) never exhausts. -/
def parseAnsiAux : Nat → AnsiStyle → List Nat → List Nat → List ColoredSpan
  | _, st, pending, [] => flushSpan pending st
  | 0, st, pending, rest => flushSpan (pending ++ rest) st
  | fuel + 1, st, pending, c :: rest =>
    match matchSGRAt (c :: rest) with
    | some (codes, rr) =>
        flushSpan pending st ++ parseAnsiAux fuel (applyCodes st codes) [] rr
    | none => parseAnsiAux fuel st (pending ++ [c]) rest

/-- `parse_ansi` (lines 28-98): split the input at every SGR escape
sequence into styled spans. -/
def parse_ansi (text : List Nat) : List ColoredSpan :=
  parseAnsiAux text.length { color := none, background := none, bold := false } [] text

/-- Concatenation of the span texts, for round-trip statements. -/
def spanTexts (spans : List ColoredSpan) : List Nat :=
  (spans.map ColoredSpan.text).flatten

/-- Specification-side definition for the styling round-trip: the input
with every substring matching `ESC [ [0-9;]* m` removed, scanning left to
right.  Same fuel convention as `parseAnsiAux`. -/
def stripSGRAux : Nat → List Nat → List Nat
  | _, [] => []
  | 0, rest => rest
  | fuel + 1, c :: rest =>
    match matchSGRAt (c :: rest) with
    | some (_, rr) => stripSGRAux fuel rr
    | none => c :: stripSGRAux fuel rest

/-- The input with every `ESC [ [0-9;]* m` escape sequence removed. -/
def stripSGR (x : List Nat) : List Nat := stripSGRAux x.length x

/-- Parameter bytes `[0-9;]` of a general CSI sequence. -/
def isParamByte (c : Nat) : Bool := (48 ≤ c && c ≤ 57) || c = 59

/-- Final letter of a general CSI sequence (`[a-zA-Z]`). -/
def isFinalLetter (c : Nat) : Bool := (65 ≤ c && c ≤ 90) || (97 ≤ c && c ≤ 122)

/-- Match a general CSI escape `ESC [ <parameters> <final-letter>` at the
head of the list, returning the remainder after the final letter. -/
def matchCSIAt : List Nat → Option (List Nat)
  | a :: b :: rest =>
    if a = 27 && b = 91 then
      match rest.dropWhile isParamByte with
      | c :: rr => if isFinalLetter c then some rr else none
      | [] => none
    else none
  | _ => none

/-- Modelled from the spec: the stripping mode of the Control-Sequence
Interpreter, which exists only in the second source variant of the
repository
(not under `src/`).  Removes every escape sequence of the general form
`ESC [ <parameters> <final-letter>` in one left-to-right scan (the
semantics of a regex `replace_all`), returning plain text.  Same fuel
convention as `parseAnsiAux`. -/
def stripAnsiAux : Nat → List Nat → List Nat
  | 0, l => l
  | _ + 1, [] => []
  | fuel + 1, c :: rest =>
    match matchCSIAt (c :: rest) with
    | some rr => stripAnsiAux fuel rr
    | none => c :: stripAnsiAux fuel rest

/-- Modelled from the spec: stripping mode entry point. -/
def stripAnsi (x : List Nat) : List Nat := stripAnsiAux x.length x

/-- Helper: one character commits a line exactly when it is a newline. -/
theorem process_char_console_length (s : TopgradeApp) (c : Nat) :
    (process_char s c).console_lines.length =
      s.console_lines.length + (if c = 10 then 1 else 0) := by
  unfold process_char
  split_ifs <;> simp_all

/-- Helper: the per-character loop commits one line per newline. -/
theorem foldl_process_char_console_length (t : List Nat) : ∀ s : TopgradeApp,
    (t.foldl process_char s).console_lines.length =
      s.console_lines.length + t.count 10 := by
  induction t with
  | nil => intro s; simp
  | cons c t ih =>
      intro s
      rw [List.foldl_cons, ih, process_char_console_length, List.count_cons]
      by_cases h : c = 10 <;> (simp [h]; try omega)

/-- Helper: the per-character loop never touches the non-buffer fields. -/
theorem foldl_process_char_frame (t : List Nat) : ∀ s : TopgradeApp,
    (t.foldl process_char s).password_mode = s.password_mode ∧
    (t.foldl process_char s).input_text = s.input_text ∧
    (t.foldl process_char s).tx_input = s.tx_input ∧
    (t.foldl process_char s).running = s.running ∧
    (t.foldl process_char s).finished = s.finished := by
  induction t with
  | nil => intro s; simp
  | cons c t ih =>
      intro s
      rw [List.foldl_cons]
      have h := ih (process_char s c)
      have hc : (process_char s c).password_mode = s.password_mode ∧
          (process_char s c).input_text = s.input_text ∧
          (process_char s c).tx_input = s.tx_input ∧
          (process_char s c).running = s.running ∧
          (process_char s c).finished = s.finished := by
        unfold process_char; split_ifs <;> simp_all
      exact ⟨h.1.trans hc.1, h.2.1.trans hc.2.1, h.2.2.1.trans hc.2.2.1,
        h.2.2.2.1.trans hc.2.2.2.1, h.2.2.2.2.trans hc.2.2.2.2⟩

/-- Helper: the character loop ignores the password flag. -/
theorem process_char_set_password (s : TopgradeApp) (b : Bool) (c : Nat) :
    process_char { s with password_mode := b } c =
      { process_char s c with password_mode := b } := by
  unfold process_char
  split_ifs <;> simp_all

/-- Helper: the per-character loop ignores the password flag. -/
theorem foldl_process_char_set_password (t : List Nat) : ∀ (s : TopgradeApp) (b : Bool),
    t.foldl process_char { s with password_mode := b } =
      { t.foldl process_char s with password_mode := b } := by
  induction t with
  | nil => intro s b; simp
  | cons c t ih =>
      intro s b
      rw [List.foldl_cons, List.foldl_cons, process_char_set_password, ih]

/-- Helper: console lines committed by `process_output` equal the
newline count of the fragment. -/
theorem process_output_console_length (s : TopgradeApp) (t : List Nat) :
    (process_output s t).console_lines.length =
      s.console_lines.length + t.count 10 := by
  unfold process_output
  split_ifs <;> rw [foldl_process_char_console_length]

/-- Helper: the password flag after `process_output`. -/
theorem process_output_password (s : TopgradeApp) (t : List Nat) :
    (process_output s t).password_mode =
      (s.password_mode || detects_password_prompt t) := by
  unfold process_output
  rcases h : detects_password_prompt t <;>
    simp [h, (foldl_process_char_frame t _).1]

theorem count10_cons_ne (x : Nat) (l : List Nat) (hx : x ≠ 10) :
    (x :: l).count 10 = l.count 10 := by
  simp [List.count_cons, hx]

theorem isCont_lower (b : Nat) (h : isCont b = true) : 128 ≤ b ∧ b ≤ 191 := by
  simp [isCont] at h; omega

theorem cont3ok_lower (b b1 : Nat) (h : cont3ok b b1 = true) : 128 ≤ b1 := by
  unfold cont3ok at h
  split_ifs at h <;> simp [isCont] at h <;> omega

theorem cont4ok_lower (b b1 : Nat) (h : cont4ok b b1 = true) : 128 ≤ b1 := by
  unfold cont4ok at h
  split_ifs at h <;> simp [isCont] at h <;> omega

theorem cp2_ne10 (b b1 : Nat) (hb : 194 ≤ b) (hb2 : b ≤ 223) :
    (b % 32) * 64 + b1 % 64 ≠ 10 := by omega

theorem cp3_ne10 (b b1 b2 : Nat) (hb : 224 ≤ b) (hb2 : b ≤ 239)
    (h : cont3ok b b1 = true) :
    (b % 16) * 4096 + (b1 % 64) * 64 + b2 % 64 ≠ 10 := by
  unfold cont3ok at h
  split_ifs at h <;> simp [isCont] at h <;> omega

theorem cp4_ne10 (b b1 b2 b3 : Nat) (hb : 240 ≤ b) (hb2 : b ≤ 244)
    (h : cont4ok b b1 = true) :
    (b % 8) * 262144 + (b1 % 64) * 4096 + (b2 % 64) * 64 + b3 % 64 ≠ 10 := by
  unfold cont4ok at h
  split_ifs at h <;> simp [isCont] at h <;> omega

theorem utf8LossyAux_count10 : ∀ fuel bs, bs.length ≤ fuel →
    (utf8LossyAux fuel bs).count 10 = bs.count 10 := by
  intro fuel
  induction fuel with
  | zero =>
      intro bs h
      rcases bs with _ | ⟨b, bs⟩
      · rfl
      · simp at h
  | succ fuel ih =>
      intro bs h
      rcases bs with _ | ⟨b, bs⟩
      · rfl
      rcases bs with _ | ⟨b1, bs⟩
      · -- input [b]
        by_cases h1 : b ≤ 127
        · simp [utf8LossyAux, h1, List.count_cons]
        · have hb : b ≠ 10 := by omega
          simp only [utf8LossyAux, if_neg h1]
          split_ifs <;> simp [List.count_cons, hb, utf8LossyAux]
      rcases bs with _ | ⟨b2, bs⟩
      · -- input [b, b1]
        have hlen : ([b1] : List Nat).length ≤ fuel := by simp at h ⊢; omega
        have hlen0 : ([] : List Nat).length ≤ fuel := by simp
        by_cases h1 : b ≤ 127
        · simp [utf8LossyAux, h1, List.count_cons, ih _ hlen]
        have hb : b ≠ 10 := by omega
        simp only [utf8LossyAux, if_neg h1]
        split_ifs with h2 hc hd3 hcc3 hd4 hcc4
        · have := isCont_lower b1 hc
          simp [List.count_cons, ih _ hlen0, cp2_ne10 b b1 h2.1 h2.2, hb,
            show b1 ≠ 10 by omega, utf8LossyAux]
        · simp [List.count_cons, ih _ hlen, hb]
        · have := cont3ok_lower b b1 hcc3
          simp [List.count_cons, hb, show b1 ≠ 10 by omega]
        · simp [List.count_cons, ih _ hlen, hb]
        · have := cont4ok_lower b b1 hcc4
          simp [List.count_cons, hb, show b1 ≠ 10 by omega]
        · simp [List.count_cons, ih _ hlen, hb]
        · simp [List.count_cons, ih _ hlen, hb]
      rcases bs with _ | ⟨b3, bs⟩
      · -- input [b, b1, b2]
        have hlen2 : ([b1, b2] : List Nat).length ≤ fuel := by simp at h ⊢; omega
        have hlen1 : ([b2] : List Nat).length ≤ fuel := by simp at h ⊢; omega
        have hlen0 : ([] : List Nat).length ≤ fuel := by simp
        by_cases h1 : b ≤ 127
        · simp [utf8LossyAux, h1, List.count_cons, ih _ hlen2]
        have hb : b ≠ 10 := by omega
        simp only [utf8LossyAux, if_neg h1]
        split_ifs with h2 hc hd3 hcc3 hc2 hd4 hcc4 hc2b
        · have := isCont_lower b1 hc
          simp [List.count_cons, ih _ hlen1, cp2_ne10 b b1 h2.1 h2.2, hb,
            show b1 ≠ 10 by omega]
        · simp [List.count_cons, ih _ hlen2, hb]
        · have := cont3ok_lower b b1 hcc3
          have := isCont_lower b2 hc2
          simp [List.count_cons, ih _ hlen0, cp3_ne10 b b1 b2 hd3.1 hd3.2 hcc3, hb,
            show b1 ≠ 10 by omega, show b2 ≠ 10 by omega, utf8LossyAux]
        · have := cont3ok_lower b b1 hcc3
          simp [List.count_cons, ih _ hlen1, hb, show b1 ≠ 10 by omega]
        · simp [List.count_cons, ih _ hlen2, hb]
        · have := cont4ok_lower b b1 hcc4
          have := isCont_lower b2 hc2b
          simp [List.count_cons, hb, show b1 ≠ 10 by omega, show b2 ≠ 10 by omega]
        · have := cont4ok_lower b b1 hcc4
          simp [List.count_cons, ih _ hlen1, hb, show b1 ≠ 10 by omega]
        · simp [List.count_cons, ih _ hlen2, hb]
        · simp [List.count_cons, ih _ hlen2, hb]
      -- input b :: b1 :: b2 :: b3 :: bs
      have hlen3 : (b1 :: b2 :: b3 :: bs).length ≤ fuel := by simp at h ⊢; omega
      have hlen2 : (b2 :: b3 :: bs).length ≤ fuel := by simp at h ⊢; omega
      have hlen1 : (b3 :: bs).length ≤ fuel := by simp at h ⊢; omega
      have hlen0 : bs.length ≤ fuel := by simp at h ⊢; omega
      by_cases h1 : b ≤ 127
      · simp [utf8LossyAux, h1, List.count_cons, ih _ hlen3]
      have hb : b ≠ 10 := by omega
      simp only [utf8LossyAux, if_neg h1]
      split_ifs with h2 hc hd3 hcc3 hc2 hd4 hcc4 hc2b hc3b
      · have := isCont_lower b1 hc
        simp [List.count_cons, ih _ hlen2, cp2_ne10 b b1 h2.1 h2.2, hb,
          show b1 ≠ 10 by omega]
      · simp [List.count_cons, ih _ hlen3, hb]
      · have := cont3ok_lower b b1 hcc3
        have := isCont_lower b2 hc2
        simp [List.count_cons, ih _ hlen1, cp3_ne10 b b1 b2 hd3.1 hd3.2 hcc3, hb,
          show b1 ≠ 10 by omega, show b2 ≠ 10 by omega]
      · have := cont3ok_lower b b1 hcc3
        simp [List.count_cons, ih _ hlen2, hb, show b1 ≠ 10 by omega]
      · simp [List.count_cons, ih _ hlen3, hb]
      · have := cont4ok_lower b b1 hcc4
        have := isCont_lower b2 hc2b
        have := isCont_lower b3 hc3b
        simp [List.count_cons, ih _ hlen0, cp4_ne10 b b1 b2 b3 hd4.1 hd4.2 hcc4, hb,
          show b1 ≠ 10 by omega, show b2 ≠ 10 by omega, show b3 ≠ 10 by omega]
      · have := cont4ok_lower b b1 hcc4
        have := isCont_lower b2 hc2b
        simp [List.count_cons, ih _ hlen1, hb, show b1 ≠ 10 by omega,
          show b2 ≠ 10 by omega]
      · have := cont4ok_lower b b1 hcc4
        simp [List.count_cons, ih _ hlen2, hb, show b1 ≠ 10 by omega]
      · simp [List.count_cons, ih _ hlen3, hb]
      · simp [List.count_cons, ih _ hlen3, hb]

theorem utf8_lossy_count10 (bs : List Nat) :
    (utf8_lossy bs).count 10 = bs.count 10 :=
  utf8LossyAux_count10 bs.length bs (Nat.le_refl _)

theorem flushSpan_text_ne_nil (pending : List Nat) (st : AnsiStyle)
    (sp : ColoredSpan) (hm : sp ∈ flushSpan pending st) : sp.text ≠ [] := by
  unfold flushSpan at hm
  split_ifs at hm with hp
  · simp at hm
  · simp at hm
    subst hm
    exact hp

theorem spanTexts_flushSpan (pending : List Nat) (st : AnsiStyle) :
    spanTexts (flushSpan pending st) = pending := by
  unfold flushSpan spanTexts
  split_ifs with hp
  · simp [hp]
  · simp

theorem spanTexts_append (a b : List ColoredSpan) :
    spanTexts (a ++ b) = spanTexts a ++ spanTexts b := by
  simp [spanTexts]

theorem parseAnsiAux_text_ne_nil : ∀ fuel (st : AnsiStyle) pending input
    (sp : ColoredSpan), sp ∈ parseAnsiAux fuel st pending input → sp.text ≠ [] := by
  intro fuel
  induction fuel with
  | zero =>
      intro st pending input sp hm
      rcases input with _ | ⟨c, rest⟩
      · exact flushSpan_text_ne_nil _ _ _ hm
      · exact flushSpan_text_ne_nil _ _ _ hm
  | succ fuel ih =>
      intro st pending input sp hm
      rcases input with _ | ⟨c, rest⟩
      · exact flushSpan_text_ne_nil _ _ _ hm
      · simp only [parseAnsiAux] at hm
        rcases hmatch : matchSGRAt (c :: rest) with _ | ⟨codes, rr⟩
        · rw [hmatch] at hm
          exact ih _ _ _ _ hm
        · rw [hmatch] at hm
          simp only [List.mem_append] at hm
          rcases hm with hm | hm
          · exact flushSpan_text_ne_nil _ _ _ hm
          · exact ih _ _ _ _ hm

theorem parseAnsiAux_spanTexts : ∀ fuel (st : AnsiStyle) pending input,
    spanTexts (parseAnsiAux fuel st pending input) = pending ++ stripSGRAux fuel input := by
  intro fuel
  induction fuel with
  | zero =>
      intro st pending input
      rcases input with _ | ⟨c, rest⟩
      · simp [parseAnsiAux, stripSGRAux, spanTexts_flushSpan]
      · simp [parseAnsiAux, stripSGRAux, spanTexts_flushSpan]
  | succ fuel ih =>
      intro st pending input
      rcases input with _ | ⟨c, rest⟩
      · simp [parseAnsiAux, stripSGRAux, spanTexts_flushSpan]
      · simp only [parseAnsiAux, stripSGRAux]
        rcases hmatch : matchSGRAt (c :: rest) with _ | ⟨codes, rr⟩
        · simp only [hmatch]
          rw [ih]
          simp
        · simp only [hmatch]
          rw [spanTexts_append, spanTexts_flushSpan, ih]
          simp

theorem matchCSIAt_none (c : Nat) (rest : List Nat) (hc : c ≠ 27) :
    matchCSIAt (c :: rest) = none := by
  rcases rest with _ | ⟨d, rest⟩
  · rfl
  · simp [matchCSIAt, hc]

theorem stripAnsiAux_no_esc : ∀ fuel y, 27 ∉ y → stripAnsiAux fuel y = y := by
  intro fuel
  induction fuel with
  | zero => intro y _; rfl
  | succ fuel ih =>
      intro y hy
      rcases y with _ | ⟨c, rest⟩
      · rfl
      · have hc : c ≠ 27 := by
          intro hc27; exact hy (by simp [hc27])
        have hrest : 27 ∉ rest := fun hmem => hy (List.mem_cons_of_mem _ hmem)
        simp only [stripAnsiAux, matchCSIAt_none c rest hc]
        rw [ih rest hrest]

theorem reader_messages (ds : List (List Nat)) (t : ReadResult) (suf : List ReadResult)
    (hds : ∀ d ∈ ds, d ≠ ([] : List Nat))
    (ht : t = ReadResult.ok [] ∨ t = ReadResult.err) :
    reader_thread (ds.map ReadResult.ok ++ t :: suf) =
      ds.map AppMsg.Output ++ [AppMsg.Exit] := by
  induction ds with
  | nil =>
      rcases ht with ht | ht <;> subst ht <;> rfl
  | cons d ds ih =>
      have hd : d ≠ ([] : List Nat) := hds d (by simp)
      have hlen : d.length > 0 := List.length_pos.mpr hd
      simp only [List.map_cons, List.cons_append, reader_thread, if_pos hlen, List.append_eq]
      rw [ih (fun x hx => hds x (by simp [hx]))]

/-- Claim C1 (counterexample): the detector of the code does not flag the
confirmation prompt "Continue? [y/N]" - processing it from the started
state leaves every flag unchanged, contradicting the claim that it is
flagged as "interactive input expected". -/
theorem prompt_detector_confirmation_prompt_not_flagged :
    process_output started (str2cp ("Continue? [y/N]")) =
      { started with current_line := str2cp ("Continue? [y/N]"), cursor_col := 15 } := by
  decide

/-- Claim C1 (amended): the detector sets the mask-as-secret flag exactly
when the lowercased fragment contains "password", "senha" or "passphrase"
and the trimmed fragment ends with a colon; it flags "Password: " and
"[sudo] password for user:", and flags neither "Continue? [y/N]" nor
"Done.". -/
theorem prompt_detector_password_rule :
    (∀ (s : TopgradeApp) (t : List Nat),
      (process_output s t).password_mode = (s.password_mode || detects_password_prompt t)) ∧
    (process_output started (str2cp ("Password: "))).password_mode = true ∧
    (process_output started (str2cp ("[sudo] password for user:"))).password_mode = true ∧
    (process_output started (str2cp ("Continue? [y/N]"))).password_mode = false ∧
    (process_output started (str2cp ("Done."))).password_mode = false :=
  ⟨process_output_password, by decide, by decide, by decide, by decide⟩

/-- Claim C2: for every byte stream and every chunking of it, the number
of finalized lines committed to the history equals the number of newline
bytes in the whole stream, independent of chunk boundaries (boundaries
inside multi-byte sequences included). -/
theorem finalized_lines_eq_newline_count (chunks : List (List Nat)) :
    ((chunks.foldl handle_output started).console_lines).length =
      (chunks.flatten).count 10 := by
  suffices h : ∀ s : TopgradeApp,
      ((chunks.foldl handle_output s).console_lines).length =
        s.console_lines.length + (chunks.flatten).count 10 by
    simpa [started] using h started
  induction chunks with
  | nil => intro s; simp
  | cons ch chunks ih =>
      intro s
      rw [List.foldl_cons, ih, List.flatten_cons, List.count_append]
      unfold handle_output
      rw [process_output_console_length, utf8_lossy_count10]
      omega

/-- Claim C3: the per-character rules of the line buffer - newline
commits and resets, carriage return resets the cursor only, any other
character clears the line first when overwriting from column 0, then
appends and advances; feeding "AAAA\rBB" yields CurrentLine "BB", and
feeding "a", "\r", "b" leaves the history empty with CurrentLine "b". -/
theorem line_buffer_char_rules :
    (∀ s : TopgradeApp, process_char s 10 =
      { s with console_lines := s.console_lines ++ [s.current_line],
               current_line := [], cursor_col := 0 }) ∧
    (∀ s : TopgradeApp, process_char s 13 = { s with cursor_col := 0 }) ∧
    (∀ (s : TopgradeApp) (c : Nat), c ≠ 10 → c ≠ 13 →
      process_char s c =
        { s with
            current_line :=
              (if s.cursor_col = 0 ∧ s.current_line ≠ [] then [] else s.current_line) ++ [c],
            cursor_col := s.cursor_col + 1 }) ∧
    (process_output started (str2cp ("AAAA\rBB"))).current_line = str2cp ("BB") ∧
    ((process_output (process_output (process_output started (str2cp ("a")))
        (str2cp ("\r"))) (str2cp ("b"))).console_lines = [] ∧
      (process_output (process_output (process_output started (str2cp ("a")))
        (str2cp ("\r"))) (str2cp ("b"))).current_line = str2cp ("b")) := by
  refine ⟨fun s => by simp [process_char], fun s => by simp [process_char],
    fun s c h10 h13 => ?_, by decide, by decide, by decide⟩
  unfold process_char
  rw [if_neg h10, if_neg h13]
  split_ifs with hcl
  · simp [hcl]
  · simp [hcl]

/-- Witness for claim C3 at a concrete state and character. -/
theorem line_buffer_char_rules_witness :
    process_char started 65 =
      { started with
          current_line :=
            (if started.cursor_col = 0 ∧ started.current_line ≠ [] then []
              else started.current_line) ++ [65],
          cursor_col := started.cursor_col + 1 } :=
  line_buffer_char_rules.2.2.1 started 65 (by decide) (by decide)

/-- Claim C4: styling "\x1b[31mHello\x1b[0m World" yields exactly the two
spans ("Hello", red, bold=false) and (" World", default, bold=false), and
spans with empty text are never produced. -/
theorem parse_ansi_red_hello_spans :
    parse_ansi (str2cp ("\x1b[31mHello\x1b[0m World")) =
      [⟨str2cp ("Hello"), some Color32.red, none, false⟩,
       ⟨str2cp (" World"), none, none, false⟩] ∧
    ∀ (t : List Nat) (sp : ColoredSpan), sp ∈ parse_ansi t → sp.text ≠ [] :=
  ⟨by decide, fun _ _ hm => parseAnsiAux_text_ne_nil _ _ _ _ _ hm⟩

/-- Witness for claim C4 at a concrete span membership. -/
theorem parse_ansi_red_hello_spans_witness :
    (⟨str2cp ("Hello"), some Color32.red, none, false⟩ : ColoredSpan).text ≠ [] :=
  parse_ansi_red_hello_spans.2 (str2cp ("\x1b[31mHello\x1b[0m World"))
    ⟨str2cp ("Hello"), some Color32.red, none, false⟩ (by decide)

/-- Claim C5: for any run of the reader worker - any number of non-empty
reads, then a first EOF or error, then anything the OS would have
returned later - the message sequence is exactly the outputs in order
followed by one single Exit message; reads after the first EOF or error
are never performed. -/
theorem reader_exactly_one_exit_after_outputs (ds : List (List Nat)) (t : ReadResult)
    (suf : List ReadResult) (hds : ∀ d ∈ ds, d ≠ ([] : List Nat))
    (ht : t = ReadResult.ok [] ∨ t = ReadResult.err) :
    reader_thread (ds.map ReadResult.ok ++ t :: suf) =
      ds.map AppMsg.Output ++ [AppMsg.Exit] ∧
    (reader_thread (ds.map ReadResult.ok ++ t :: suf)).count AppMsg.Exit = 1 := by
  have h := reader_messages ds t suf hds ht
  refine ⟨h, ?_⟩
  rw [h, List.count_append]
  have hz : (ds.map AppMsg.Output).count AppMsg.Exit = 0 := by
    rw [List.count_eq_zero]
    simp
  simp [hz]

/-- Witness for claim C5 at a concrete read trace. -/
theorem reader_exactly_one_exit_after_outputs_witness :
    reader_thread ([ReadResult.ok ([72, 105]), ReadResult.ok ([]), ReadResult.err]) =
      [AppMsg.Output ([72, 105]), AppMsg.Exit] ∧
    (reader_thread ([ReadResult.ok ([72, 105]), ReadResult.ok ([]),
      ReadResult.err])).count AppMsg.Exit = 1 := by
  have h := reader_exactly_one_exit_after_outputs ([[72, 105]]) (ReadResult.ok ([]))
    ([ReadResult.err]) (by decide) (Or.inl rfl)
  simpa using h

/-- Claim C6 (counterexample): single-pass stripping is not idempotent -
removing an escape sequence can juxtapose the pieces of a new one, as on
ESC [ ESC [ 3 1 m m, whose first strip leaves ESC [ m and whose second
strip removes it. -/
theorem strip_idempotence_counterexample :
    stripAnsi (stripAnsi ([27, 91, 27, 91, 51, 49, 109, 109])) ≠
      stripAnsi ([27, 91, 27, 91, 51, 49, 109, 109]) := by
  decide

/-- Claim C6 (amended): stripping removes every `ESC [ <parameters>
<final-letter>` sequence in one left-to-right pass; it is idempotent on
every input whose stripped result contains no remaining ESC character
(in particular whenever no new sequence is formed by juxtaposition). -/
theorem strip_idempotent_when_no_esc_left (x : List Nat)
    (h : 27 ∉ stripAnsi x) : stripAnsi (stripAnsi x) = stripAnsi x :=
  stripAnsiAux_no_esc (stripAnsi x).length (stripAnsi x) h

/-- Witness for the amended claim C6 at a concrete input. -/
theorem strip_idempotent_when_no_esc_left_witness :
    (27 ∉ stripAnsi (str2cp ("\x1b[31mOK"))) ∧
      stripAnsi (stripAnsi (str2cp ("\x1b[31mOK"))) = stripAnsi (str2cp ("\x1b[31mOK")) :=
  ⟨by decide, strip_idempotent_when_no_esc_left _ (by decide)⟩

/-- Claim C7: whenever input is submitted with a sink attached, the
buffer plus a newline is written in one single call, the buffer is
cleared, and the password mask flag is cleared unconditionally
(whatever its previous value, and independent of the write outcome). -/
theorem send_input_submits_terminated_buffer (s : TopgradeApp) (h : s.tx_input = true) :
    send_input s = ({ s with input_text := [], password_mode := false },
      [s.input_text ++ [10]]) := by
  unfold send_input
  rw [if_pos h]

/-- Concrete app state for the input-router witnesses. -/
def exApp : TopgradeApp :=
  { started with input_text := str2cp ("yes"), password_mode := true }

/-- Witness for claim C7 at a concrete state. -/
theorem send_input_submits_terminated_buffer_witness :
    send_input exApp = ({ exApp with input_text := [], password_mode := false },
      [exApp.input_text ++ [10]]) :=
  send_input_submits_terminated_buffer exApp (by decide)

/-- Claim C8: prompt detection never alters buffered content - the
buffers after `process_output` do not depend on the password flag, equal
the pure line-buffer fold of the text, and all fields other than the
buffers and the password flag are untouched. -/
theorem prompt_detection_frame (s : TopgradeApp) (text : List Nat) (b : Bool) :
    ((process_output { s with password_mode := b } text).console_lines =
        (process_output s text).console_lines ∧
      (process_output { s with password_mode := b } text).current_line =
        (process_output s text).current_line ∧
      (process_output { s with password_mode := b } text).cursor_col =
        (process_output s text).cursor_col) ∧
    ((process_output s text).console_lines = (text.foldl process_char s).console_lines ∧
      (process_output s text).current_line = (text.foldl process_char s).current_line ∧
      (process_output s text).cursor_col = (text.foldl process_char s).cursor_col) ∧
    (process_output s text).input_text = s.input_text ∧
    (process_output s text).tx_input = s.tx_input ∧
    (process_output s text).running = s.running ∧
    (process_output s text).finished = s.finished := by
  have key : ∀ s₀ : TopgradeApp, process_output s₀ text =
      { text.foldl process_char s₀ with
          password_mode := (s₀.password_mode || detects_password_prompt text) } := by
    intro s₀
    rcases hd : detects_password_prompt text with _ | _
    · rw [show process_output s₀ text = text.foldl process_char s₀ by
        simp [process_output, hd]]
      rw [Bool.or_false, ← (foldl_process_char_frame text s₀).1]
    · rw [show process_output s₀ text =
          text.foldl process_char { s₀ with password_mode := true } by
        simp [process_output, hd]]
      rw [foldl_process_char_set_password, Bool.or_true]
  refine ⟨?_, ?_, ?_⟩
  · rw [key { s with password_mode := b }, key s, foldl_process_char_set_password]
    simp
  · rw [key s]
    exact ⟨rfl, rfl, rfl⟩
  · rw [key s]
    have hf := foldl_process_char_frame text s
    simpa using ⟨hf.2.1, hf.2.2.1, hf.2.2.2.1, hf.2.2.2.2⟩

/-- Claim C9: concatenating the texts of the spans returned by
`parse_ansi` gives exactly the input with every `ESC [ [0-9;]* m`
sequence removed - no other text is lost or duplicated - and every
returned span has non-empty text. -/
theorem parse_ansi_roundtrip (x : List Nat) :
    spanTexts (parse_ansi x) = stripSGR x ∧
    ∀ sp ∈ parse_ansi x, sp.text ≠ [] := by
  refine ⟨?_, fun _ hm => parseAnsiAux_text_ne_nil _ _ _ _ _ hm⟩
  unfold parse_ansi stripSGR
  rw [parseAnsiAux_spanTexts]
  simp

/-- Witness for claim C9 at a concrete input and span. -/
theorem parse_ansi_roundtrip_witness :
    spanTexts (parse_ansi (str2cp ("A\x1b[31mB"))) = stripSGR (str2cp ("A\x1b[31mB")) ∧
    (⟨str2cp ("B"), some Color32.red, none, false⟩ : ColoredSpan).text ≠ [] :=
  ⟨(parse_ansi_roundtrip (str2cp ("A\x1b[31mB"))).1,
   (parse_ansi_roundtrip (str2cp ("A\x1b[31mB"))).2
     ⟨str2cp ("B"), some Color32.red, none, false⟩ (by decide)⟩

/-- Claim C10: submitting input while no sink is attached is a complete
no-op - the state is unchanged and nothing is written. -/
theorem send_input_no_sink_noop (s : TopgradeApp) (h : s.tx_input = false) :
    send_input s = (s, []) := by
  unfold send_input
  rw [if_neg (by simp [h])]

/-- Concrete finished app state (sink dropped) for the C10 witness. -/
def exAppFinished : TopgradeApp :=
  { started with
      running := false, tx_input := false, finished := true,
      input_text := str2cp ("ls") }

/-- Witness for claim C10 at a concrete state. -/
theorem send_input_no_sink_noop_witness :
    send_input exAppFinished = (exAppFinished, []) :=
  send_input_no_sink_noop exAppFinished (by decide)
